import Mathlib

/-!
Shallow embedding of `trafilatura/cli_utils.py` (CLI processing helpers):
the backoff-aware domain scheduler, the sequential and concurrent fetch
executors, the input normalizer (blacklist loading), the output-path
sharding logic, the per-document safety gate, and the batch file pipeline.

Python dictionaries are modelled as association lists preserving insertion
order (as CPython dicts do); `random.choice` is modelled by an externally
supplied index oracle; wall-clock time is modelled as a natural number of
seconds threaded through the scheduler; `time.sleep` advances that clock.
Fallible operations return `Option`.
-/

set_option maxHeartbeats 1000000
set_option maxRecDepth 100000

namespace Trafilatura

/-- Python `d[k]` lookup on an insertion-ordered dict modelled as an
association list. -/
def alookup {α : Type} (k : String) : List (String × α) → Option α
  | [] => none
  | (k', v) :: t => if k' = k then some v else alookup k t

/-- Python `d[k] = v`: update in place if the key exists, else append. -/
def aset {α : Type} (k : String) (v : α) : List (String × α) → List (String × α)
  | [] => [(k, v)]
  | (k', v') :: t => if k' = k then (k, v) :: t else (k', v') :: aset k v t

/-- Python `del d[k]` (with `KeyError` ignored): drop the entry if present. -/
def aerase {α : Type} (k : String) : List (String × α) → List (String × α)
  | [] => []
  | (k', v') :: t => if k' = k then t else (k', v') :: aerase k t

/-- `os.path.join(dirname, sub)` for the shapes used here. -/
def pathJoin (dirname sub : String) : String := dirname ++ "/" ++ sub

/-- The shard index `int(counter / MAX_FILES_PER_DIRECTORY) + 1` computed by
`determine_counter_dir`; the shard size is the parameter `S`. -/
def counter_shard (S c : Nat) : Nat := c / S + 1

/-- `determine_counter_dir(dirname, counter)`: destination directory based on
a file counter; the settings constant `MAX_FILES_PER_DIRECTORY` is the
parameter `S`. -/
def determine_counter_dir (dirname : String) (counter : Option Nat) (S : Nat) : String :=
  match counter with
  | some c => pathJoin dirname (toString (counter_shard S c))
  | none => pathJoin dirname ""

/-- Python `str.strip()` over a line modelled as a character list. -/
def pyStrip (s : List Char) : List Char :=
  ((s.dropWhile Char.isWhitespace).reverse.dropWhile Char.isWhitespace).reverse

/-- Python `s.startswith(pat)` with the pattern as first argument. -/
def startswith : List Char → List Char → Bool
  | [], _ => true
  | _ :: _, [] => false
  | p :: ps, c :: cs => if p = c then startswith ps cs else false

/-- `re.sub('^' + pat, repl, s)` for a literal anchored pattern: replace the
leading occurrence of `pat` by `repl`, or leave `s` unchanged. -/
def subst_scheme (pat repl s : List Char) : List Char :=
  if startswith pat s then repl ++ s.drop pat.length else s

/-- The literal `https` tested by `url.startswith('https')`. -/
def httpsTok : List Char := ['h', 't', 't', 'p', 's']

/-- The literal `http:` of the pattern `^http:`. -/
def httpColon : List Char := ['h', 't', 't', 'p', ':']

/-- The literal `https:` of the pattern `^https:`. -/
def httpsColon : List Char := ['h', 't', 't', 'p', 's', ':']

/-- The scheme part `http://` of an URL. -/
def httpPre : List Char := ['h', 't', 't', 'p', ':', '/', '/']

/-- The scheme part `https://` of an URL. -/
def httpsPre : List Char := ['h', 't', 't', 'p', 's', ':', '/', '/']

/-- Loop body of `load_blacklist`: strip the line, add it, and add the
scheme-swapped rewrite (`^https:` to `http:` when the line starts with
`https`, else `^http:` to `https:`).  The Python set is modelled as a list
with membership semantics. -/
def blacklist_step (blacklist : List (List Char)) (line : List Char) : List (List Char) :=
  let url := pyStrip line
  (if startswith httpsTok url then subst_scheme httpsColon httpColon url
   else subst_scheme httpColon httpsColon url) :: url :: blacklist

/-- `load_blacklist`: read unwanted URLs, adding both scheme variants. -/
def load_blacklist (lines : List (List Char)) : List (List Char) :=
  lines.foldl blacklist_step []

/-- `random.choice(list(domain_dict))`: the domain picked by the oracle index
`choice`, taken modulo the number of domains. -/
def chosenDomain (dd : List (String × List String)) (choice : Nat) : String :=
  (dd.map Prod.fst).getD (choice % dd.length) ""

/-- The politeness-window test of `draw_backoff_url`:
`domain in backoff_dict and (now - backoff_dict[domain]) < sleeptime`. -/
def inWindow (bd : List (String × Nat)) (domain : String) (sleeptime now : Nat) : Bool :=
  match alookup domain bd with
  | some t => now - t < sleeptime
  | none => false

/-- The stall-counter update of `draw_backoff_url`: on an in-window draw,
increment `i`; when `i` reaches `len(domain_dict) * 3`, sleep `sleeptime`
(the clock advances) and reset `i` to 0.  Returns the new `i` and the clock
after the possible pause. -/
def stall_update (ddlen sleeptime i now : Nat) (inw : Bool) : Nat × Nat :=
  if inw then
    if ddlen * 3 ≤ i + 1 then (0, now + sleeptime) else (i + 1, now)
  else (i, now)

/-- `draw_backoff_url(domain_dict, backoff_dict, sleeptime, i)`: pick a
domain via the oracle, apply the stall-counter safeguard, pop the
most-recently-appended URL of that domain, and clean or refresh the
registries.  Returns the URL, the updated dict states, the new counter and
the clock after the draw; `none` models a Python runtime error (empty dict
or empty queue). -/
def draw_backoff_url (dd : List (String × List String)) (bd : List (String × Nat))
    (sleeptime i choice now : Nat) :
    Option (String × List (String × List String) × List (String × Nat) × Nat × Nat) :=
  if dd.isEmpty then none else
  let domain := chosenDomain dd choice
  let p := stall_update dd.length sleeptime i now (inWindow bd domain sleeptime now)
  match alookup domain dd with
  | none => none
  | some urls =>
    match urls.getLast? with
    | none => none
    | some url =>
      let rest := urls.dropLast
      if rest.isEmpty then
        some (url, aerase domain dd, aerase domain bd, p.1, p.2)
      else
        some (url, aset domain rest dd, aset domain p.2 bd, p.1, p.2)

/-- The invariant that every domain of the backoff registry has a non-empty
queue entry. -/
def registry_invariant (dd : List (String × List String)) (bd : List (String × Nat)) : Prop :=
  ∀ p ∈ bd, ∃ us, alookup p.1 dd = some us ∧ us ≠ []

/-- Draw the next oracle value, defaulting to 0 once the prescribed
choices are exhausted. -/
def nextChoice : List Nat → Nat × List Nat
  | [] => (0, [])
  | c :: cs => (c, cs)

/-- The `while domain_dict` loop of `single_threaded_processing`: draw,
fetch, forward successes to the result processor (modelled by its counter
increment) and record failures.  Structured by fuel; `none` models
non-termination within the given fuel or a scheduler fault. -/
def single_loop (fetch : String → Option String) (sleeptime : Nat) :
    Nat → List (String × List String) → List (String × Nat) → Nat → List Nat → Nat →
    List String → Option Nat → Option (List String × Option Nat)
  | 0, dd, _, _, _, _, errors, counter =>
    if dd.isEmpty then some (errors, counter) else none
  | fuel + 1, dd, bd, i, choices, now, errors, counter =>
    if dd.isEmpty then some (errors, counter)
    else
      let c := nextChoice choices
      match draw_backoff_url dd bd sleeptime i c.1 now with
      | none => none
      | some (url, dd', bd', i', now') =>
        match fetch url with
        | some _ =>
          single_loop fetch sleeptime fuel dd' bd' i' c.2 now' errors (counter.map (· + 1))
        | none =>
          single_loop fetch sleeptime fuel dd' bd' i' c.2 now' (errors ++ [url]) counter

/-- `single_threaded_processing(domain_dict, backoff_dict, args, sleeptime,
counter)`: the sequential executor starts its stall counter at the higher
level 3 and with an empty error list. -/
def single_threaded_processing (fetch : String → Option String) (sleeptime fuel : Nat)
    (dd : List (String × List String)) (bd : List (String × Nat))
    (choices : List Nat) (now : Nat) (counter : Option Nat) :
    Option (List String × Option Nat) :=
  single_loop fetch sleeptime fuel dd bd 3 choices now [] counter

/-- `len({x for v in domain_dict.values() for x in v})`: the number of
distinct URLs remaining in the queue. -/
def distinctUrlCount (dd : List (String × List String)) : Nat :=
  ((dd.map Prod.snd).flatten.dedup).length

/-- The `while len(bufferlist) < download_threads` loop: draw `n` URLs into
the dispatch buffer. -/
def fill_buffer (sleeptime : Nat) :
    Nat → List (String × List String) → List (String × Nat) → Nat → List Nat → Nat →
    List String →
    Option (List String × List (String × List String) × List (String × Nat) × Nat × List Nat × Nat)
  | 0, dd, bd, i, choices, now, buf => some (buf, dd, bd, i, choices, now)
  | n + 1, dd, bd, i, choices, now, buf =>
    let c := nextChoice choices
    match draw_backoff_url dd bd sleeptime i c.1 now with
    | none => none
    | some (url, dd', bd', i', now') =>
      fill_buffer sleeptime n dd' bd' i' c.2 now' (buf ++ [url])

/-- Observable events of the concurrent executor: a batch dispatch, or the
delegation of the remainder to the sequential executor. -/
inductive MEvent where
  | delegated : MEvent
  | batch : List String → MEvent
deriving DecidableEq

/-- Process one completed dispatch batch: successes go to the result
processor (counter increment), failures are appended to the error list.
`as_completed` yields futures in nondeterministic completion order; only
order-insensitive observables (error membership, counter) are claimed, so
buffer order is used. -/
def process_batch (fetch : String → Option String) (buf : List String)
    (errors : List String) (counter : Option Nat) : List String × Option Nat :=
  buf.foldl
    (fun ec url =>
      match fetch url with
      | some _ => (ec.1, ec.2.map (· + 1))
      | none => (ec.1 ++ [url], ec.2))
    (errors, counter)

/-- The `while domain_dict` loop of `multi_threaded_processing`.  At the top
of each iteration: if the remaining distinct-URL count is below the thread
count `N`, the remainder is handed to `single_threaded_processing` and that
result is returned directly (the errors accumulated so far are discarded by
the reassignment in the source); otherwise a buffer of `N` URLs is drawn,
fetched, and processed.  The event log records which branch ran. -/
def multi_loop (fetch : String → Option String) (sleeptime N : Nat) :
    Nat → List (String × List String) → List (String × Nat) → Nat → List Nat → Nat →
    List String → Option Nat → Option (List String × Option Nat × List MEvent)
  | 0, dd, _, _, _, _, errors, counter =>
    if dd.isEmpty then some (errors, counter, []) else none
  | fuel + 1, dd, bd, i, choices, now, errors, counter =>
    if dd.isEmpty then some (errors, counter, [])
    else if distinctUrlCount dd < N then
      (single_threaded_processing fetch sleeptime fuel dd bd choices now counter).map
        (fun ec => (ec.1, ec.2, [MEvent.delegated]))
    else
      match fill_buffer sleeptime N dd bd i choices now [] with
      | none => none
      | some (buf, dd', bd', i', choices', now') =>
        let ec := process_batch fetch buf errors counter
        (multi_loop fetch sleeptime N fuel dd' bd' i' choices' now' ec.1 ec.2).map
          (fun r => (r.1, r.2.1, MEvent.batch buf :: r.2.2))

/-- `multi_threaded_processing(domain_dict, args, sleeptime, counter)`: the
concurrent executor starts with `i = 0`, a fresh backoff dict and an empty
error list. -/
def multi_threaded_processing (fetch : String → Option String) (sleeptime N fuel : Nat)
    (choices : List Nat) (now : Nat) (dd : List (String × List String))
    (counter : Option Nat) : Option (List String × Option Nat × List MEvent) :=
  multi_loop fetch sleeptime N fuel dd [] 0 choices now [] counter

/-- `examine(htmlstring, args, url)`: the per-document safety gate.  The
extraction collaborator (from `core`, outside this file) is the parameter
`extractF`; its faults, including the signal-based timeout, are modelled by
`Except.error`.  Returns the result and the diagnostics written to stderr.
The settings constants `MIN_FILE_SIZE` and `MAX_FILE_SIZE` are the
parameters `MINS` and `MAXS`. -/
def examine (extractF : List Char → Except String (Option String)) (MINS MAXS : Nat)
    (htmlstring : Option (List Char)) : Option String × List String :=
  match htmlstring with
  | none => (none, ["ERROR: empty document"])
  | some doc =>
    if MAXS < doc.length then (none, ["ERROR: file too large"])
    else if doc.length < MINS then (none, ["ERROR: file too small"])
    else
      match extractF doc with
      | Except.ok r => (r, [])
      | Except.error e => (none, ["ERROR: " ++ e])

/-- A write performed by `write_result`: either to stdout or to a file. -/
inductive WriteAction where
  | toStdout : String → WriteAction
  | toFile : String → String → WriteAction
deriving DecidableEq

/-- `write_result(result, args, ...)`: return immediately on a `None`
result, else write to stdout (no output directory) or to the destination
computed by `determine_output_path` (the parameter `dest`, a path/directory
pair) provided `check_outputdir_status` (the parameter `dirOk`) accepts the
directory. -/
def write_result (result : Option String) (outputdir : Option String)
    (dest : String × String) (dirOk : String → Bool) : Option WriteAction :=
  match result with
  | none => none
  | some r =>
    match outputdir with
    | none => some (WriteAction.toStdout (r ++ "\n"))
    | some _ => if dirOk dest.2 then some (WriteAction.toFile dest.1 r) else none

/-- The `for filename in generate_filelist(...)` loop of
`file_processing_pipeline`: accumulate files into a batch; once the batch
size exceeds the shard size `S`, initialize the counter if needed, dispatch
the batch (recorded as a round with the counter it used), advance the
counter by the batch size, and reset the batch.  Returns the leftover
batch, the counter and the dispatched rounds. -/
def fpp_loop {α : Type} (S : Nat) :
    List α → List α → Option Nat → List (List α × Option Nat) →
    List α × Option Nat × List (List α × Option Nat)
  | [], batch, ctr, rounds => (batch, ctr, rounds)
  | f :: rest, batch, ctr, rounds =>
    let batch' := batch ++ [f]
    if S < batch'.length then
      fpp_loop S rest [] (some (ctr.getD 0 + batch'.length))
        (rounds ++ [(batch', some (ctr.getD 0))])
    else fpp_loop S rest batch' ctr rounds

/-- `file_processing_pipeline(args)`: run the batching loop over the walked
file list, then add the leftover batch's length to the counter (when
non-null) and dispatch the final batch.  Returns the dispatch rounds, each
with the counter value passed to its workers. -/
def file_processing_pipeline {α : Type} (S : Nat) (files : List α) :
    List (List α × Option Nat) :=
  let r := fpp_loop S files [] none []
  r.2.2 ++ [(r.1, r.2.1.map (fun c => c + r.1.length))]

/-- Body of the `while input_urls` partitioning loop of
`url_processing_pipeline`: append the popped URL to its domain's bucket,
creating the bucket if needed.  Domain extraction (`courlan`) is the
parameter `ed`. -/
def partition_step (ed : String → String) (dd : List (String × List String))
    (url : String) : List (String × List String) :=
  let d := ed url
  match alookup d dd with
  | some us => aset d (us ++ [url]) dd
  | none => dd ++ [(d, [url])]

/-- The `while input_urls: url = input_urls.pop()` loop: repeatedly pop the
last URL and partition it, until the list is empty (fuel bounds the
iteration count; `input_urls.length` fuel always suffices).  Returns the
drained list together with the domain dict. -/
def partition_drain (ed : String → String) :
    Nat → List String → List (String × List String) →
    List String × List (String × List String)
  | 0, input_urls, dd => (input_urls, dd)
  | fuel + 1, input_urls, dd =>
    match input_urls.getLast? with
    | none => (input_urls, dd)
    | some url => partition_drain ed fuel input_urls.dropLast (partition_step ed dd url)

/-- The counter initialization of `url_processing_pipeline`: after the
partitioning loop has consumed `input_urls`, the source tests
`len(input_urls) > MAX_FILES_PER_DIRECTORY` on that same (drained) list. -/
def url_pipeline_counter (S : Nat) (ed : String → String)
    (input_urls : List String) : Option Nat :=
  let r := partition_drain ed input_urls.length input_urls []
  if S < r.1.length then some 0 else none

/-! ## Association-list lemmas -/

theorem alookup_eq_none_of_not_mem {α : Type} {k : String} {l : List (String × α)}
    (h : k ∉ l.map Prod.fst) : alookup k l = none := by
  induction l with
  | nil => rfl
  | cons p t ih =>
    obtain ⟨k', v'⟩ := p
    rw [List.map_cons, List.mem_cons] at h
    push_neg at h
    simp [alookup, Ne.symm h.1, ih h.2]

theorem alookup_aset_self {α : Type} (k : String) (v : α) (l : List (String × α)) :
    alookup k (aset k v l) = some v := by
  induction l with
  | nil => simp [aset, alookup]
  | cons p t ih =>
    obtain ⟨k', v'⟩ := p
    by_cases hk : k' = k
    · subst hk; simp [aset, alookup]
    · simp [aset, alookup, hk, ih]

theorem alookup_aset_ne {α : Type} {k j : String} (hne : j ≠ k) (v : α)
    (l : List (String × α)) : alookup j (aset k v l) = alookup j l := by
  induction l with
  | nil => simp [aset, alookup, Ne.symm hne]
  | cons p t ih =>
    obtain ⟨k', v'⟩ := p
    by_cases hk : k' = k
    · subst hk; simp [aset, alookup, Ne.symm hne]
    · by_cases hj : k' = j <;> simp [aset, alookup, hk, hj, hne, ih]

theorem alookup_aerase_ne {α : Type} {k j : String} (hne : j ≠ k)
    (l : List (String × α)) : alookup j (aerase k l) = alookup j l := by
  induction l with
  | nil => simp [aerase]
  | cons p t ih =>
    obtain ⟨k', v'⟩ := p
    by_cases hk : k' = k
    · subst hk; simp [aerase, alookup, Ne.symm hne]
    · by_cases hj : k' = j <;> simp [aerase, alookup, hk, hj, hne, ih]

theorem alookup_aerase_self {α : Type} (k : String) (l : List (String × α))
    (hnd : (l.map Prod.fst).Nodup) : alookup k (aerase k l) = none := by
  induction l with
  | nil => rfl
  | cons p t ih =>
    obtain ⟨k', v'⟩ := p
    simp at hnd
    by_cases hk : k' = k
    · subst hk
      simp only [aerase, if_pos rfl]
      exact alookup_eq_none_of_not_mem (by simpa using hnd.1)
    · simp [aerase, alookup, hk, ih hnd.2]

theorem mem_aerase_fst_ne {α : Type} {k : String} {p : String × α} {l : List (String × α)}
    (hnd : (l.map Prod.fst).Nodup) (h : p ∈ aerase k l) : p ∈ l ∧ p.1 ≠ k := by
  induction l with
  | nil => simp [aerase] at h
  | cons q t ih =>
    obtain ⟨k', v'⟩ := q
    rw [List.map_cons, List.nodup_cons] at hnd
    by_cases hk : k' = k
    · subst hk
      simp only [aerase, if_pos rfl] at h
      refine ⟨List.mem_cons_of_mem _ h, ?_⟩
      intro hpk
      apply hnd.1
      have hm : p.1 ∈ t.map Prod.fst := List.mem_map_of_mem Prod.fst h
      rwa [hpk] at hm
    · simp only [aerase, if_neg hk] at h
      rcases List.mem_cons.mp h with h1 | h1
      · subst h1; exact ⟨List.mem_cons_self _ _, hk⟩
      · obtain ⟨h2, h3⟩ := ih hnd.2 h1
        exact ⟨List.mem_cons_of_mem _ h2, h3⟩

theorem mem_aset_elim {α : Type} {k : String} {v : α} {p : String × α}
    {l : List (String × α)} (h : p ∈ aset k v l) : p.1 = k ∨ p ∈ l := by
  induction l with
  | nil =>
    simp [aset] at h
    left; simp [h]
  | cons q t ih =>
    obtain ⟨k', v'⟩ := q
    by_cases hk : k' = k
    · subst hk
      simp only [aset, if_pos rfl] at h
      rcases List.mem_cons.mp h with h1 | h1
      · left; simp [h1]
      · right; exact List.mem_cons_of_mem _ h1
    · simp only [aset, if_neg hk] at h
      rcases List.mem_cons.mp h with h1 | h1
      · right; subst h1; exact List.mem_cons_self _ _
      · rcases ih h1 with h2 | h2
        · left; exact h2
        · right; exact List.mem_cons_of_mem _ h2

/-! ## Scheduler lemmas -/

/-- Inversion for `draw_backoff_url`: the returned stall counter and clock
are exactly the components computed by `stall_update`. -/
theorem draw_stall_components (dd : List (String × List String)) (bd : List (String × Nat))
    (sleeptime i choice now : Nat) (url : String) (dd' : List (String × List String))
    (bd' : List (String × Nat)) (i' now' : Nat)
    (hdraw : draw_backoff_url dd bd sleeptime i choice now = some (url, dd', bd', i', now')) :
    i' = (stall_update dd.length sleeptime i now
            (inWindow bd (chosenDomain dd choice) sleeptime now)).1 ∧
    now' = (stall_update dd.length sleeptime i now
            (inWindow bd (chosenDomain dd choice) sleeptime now)).2 := by
  simp only [draw_backoff_url] at hdraw
  split at hdraw
  · simp at hdraw
  · split at hdraw
    · simp at hdraw
    · split at hdraw
      · simp at hdraw
      · split at hdraw <;>
          simp only [Option.some.injEq, Prod.mk.injEq] at hdraw <;>
          exact ⟨hdraw.2.2.2.1.symm, hdraw.2.2.2.2.symm⟩

/-- Claim C4: in every `draw_backoff_url` call, an in-window draw increments
the stall counter `i`; when the incremented counter reaches three times the
number of distinct domains currently in the queue, a global pause of
`sleeptime` seconds is performed and `i` is reset to 0; a draw outside the
window returns `i` unchanged and performs no pause. -/
theorem draw_stall_counter_spec (dd : List (String × List String)) (bd : List (String × Nat))
    (sleeptime i choice now : Nat) (url : String) (dd' : List (String × List String))
    (bd' : List (String × Nat)) (i' now' : Nat)
    (hdraw : draw_backoff_url dd bd sleeptime i choice now = some (url, dd', bd', i', now')) :
    (inWindow bd (chosenDomain dd choice) sleeptime now = true →
      (dd.length * 3 ≤ i + 1 → i' = 0 ∧ now' = now + sleeptime) ∧
      (¬ dd.length * 3 ≤ i + 1 → i' = i + 1 ∧ now' = now)) ∧
    (inWindow bd (chosenDomain dd choice) sleeptime now = false →
      i' = i ∧ now' = now) := by
  obtain ⟨hi, hnow⟩ := draw_stall_components dd bd sleeptime i choice now url dd' bd' i' now' hdraw
  subst hi; subst hnow
  constructor
  · intro hw
    constructor
    · intro hth; simp [stall_update, hw, hth]
    · intro hth; simp [stall_update, hw, hth]
  · intro hw; simp [stall_update, hw]

/-- Witness for `draw_stall_counter_spec` at a concrete in-window draw that
hits the valve threshold: one domain, `i = 2`, `2 + 1 ≥ 3 * 1`. -/
theorem draw_stall_counter_spec_witness :
    (inWindow [("a", 0)] (chosenDomain [("a", ["u", "v"])] 0) 5 1 = true →
      (([("a", ["u", "v"])] : List (String × List String)).length * 3 ≤ 2 + 1 →
        (0 : Nat) = 0 ∧ (6 : Nat) = 1 + 5) ∧
      (¬ ([("a", ["u", "v"])] : List (String × List String)).length * 3 ≤ 2 + 1 →
        (0 : Nat) = 2 + 1 ∧ (6 : Nat) = 1)) ∧
    (inWindow [("a", 0)] (chosenDomain [("a", ["u", "v"])] 0) 5 1 = false →
      (0 : Nat) = 2 ∧ (6 : Nat) = 1) :=
  draw_stall_counter_spec [("a", ["u", "v"])] [("a", 0)] 5 2 0 1
    "v" [("a", ["u"])] [("a", 6)] 0 6 rfl

/-- Claim C2 counterexample: two consecutive scheduler draws both choose
domain `a`; the second occurs 1 second after `a`'s dispatch, inside the
10-second politeness window, yet no global pause fired between or during
the draws (the clock returned by each draw equals the clock it was given,
and the stall counter ends at 1, not reset), refuting the claim that such a
pair of draws requires the stall valve to have fired. -/
theorem c2_consecutive_window_draws_counterexample :
    chosenDomain [("a", ["u1", "u2"]), ("b", ["v1"])] 0 = "a" ∧
    inWindow [] "a" 10 0 = false ∧
    draw_backoff_url [("a", ["u1", "u2"]), ("b", ["v1"])] [] 10 0 0 0 =
      some ("u2", [("a", ["u1"]), ("b", ["v1"])], [("a", 0)], 0, 0) ∧
    chosenDomain [("a", ["u1"]), ("b", ["v1"])] 0 = "a" ∧
    inWindow [("a", 0)] "a" 10 1 = true ∧
    draw_backoff_url [("a", ["u1"]), ("b", ["v1"])] [("a", 0)] 10 0 0 1 =
      some ("u1", [("b", ["v1"])], [], 1, 1) :=
  ⟨rfl, rfl, rfl, rfl, rfl, rfl⟩

/-- Claim C2 (amended): consecutive same-domain draws inside the politeness
window are possible without the stall valve firing; each such draw only
increments the stall counter.  What does hold: when the valve fires during
a draw (the incremented counter reaches three times the distinct-domain
count), the global pause pushes the clock past the chosen domain's
politeness window, so that the dispatch itself happens outside the window. -/
theorem draw_valve_pause_leaves_window (dd : List (String × List String))
    (bd : List (String × Nat)) (sleeptime i choice now t : Nat)
    (ht : alookup (chosenDomain dd choice) bd = some t) (htle : t ≤ now)
    (hw : inWindow bd (chosenDomain dd choice) sleeptime now = true)
    (hth : dd.length * 3 ≤ i + 1)
    (url : String) (dd' : List (String × List String)) (bd' : List (String × Nat))
    (i' now' : Nat)
    (hdraw : draw_backoff_url dd bd sleeptime i choice now = some (url, dd', bd', i', now')) :
    i' = 0 ∧ now' = now + sleeptime ∧ ¬ (now' - t < sleeptime) := by
  obtain ⟨hi, hnow⟩ :=
    draw_stall_components dd bd sleeptime i choice now url dd' bd' i' now' hdraw
  have hsu : stall_update dd.length sleeptime i now
      (inWindow bd (chosenDomain dd choice) sleeptime now) = (0, now + sleeptime) := by
    simp [stall_update, hw, hth]
  rw [hi, hnow, hsu]
  refine ⟨rfl, rfl, ?_⟩
  show ¬ (now + sleeptime - t < sleeptime)
  omega

/-- Witness for `draw_valve_pause_leaves_window`: one domain, counter at 2,
third in-window draw fires the valve; dispatch moves to time 6, outside the
5-second window opened at time 0. -/
theorem draw_valve_pause_leaves_window_witness :
    (0 : Nat) = 0 ∧ (6 : Nat) = 1 + 5 ∧ ¬ ((6 : Nat) - 0 < 5) :=
  draw_valve_pause_leaves_window [("a", ["u", "v"])] [("a", 0)] 5 2 0 1 0
    rfl (by omega) rfl (by decide) "v" [("a", ["u"])] [("a", 6)] 0 6 rfl

/-- Claim C5: after a successful `draw_backoff_url` call on dictionaries
with unique keys, if the drawn URL was the chosen domain's last pending URL
then the domain is absent from both the queue mapping and the backoff
registry of the returned state; otherwise the domain's backoff entry equals
the dispatch time returned by the draw.  Consequently the invariant that no
domain appears in the backoff registry without a non-empty queue entry is
preserved. -/
theorem draw_registry_cleanup_spec (dd : List (String × List String))
    (bd : List (String × Nat)) (sleeptime i choice now : Nat)
    (hdd : (dd.map Prod.fst).Nodup) (hbd : (bd.map Prod.fst).Nodup)
    (url : String) (dd' : List (String × List String)) (bd' : List (String × Nat))
    (i' now' : Nat) (urls : List String)
    (hurls : alookup (chosenDomain dd choice) dd = some urls)
    (hdraw : draw_backoff_url dd bd sleeptime i choice now = some (url, dd', bd', i', now')) :
    (urls.dropLast = [] →
      alookup (chosenDomain dd choice) dd' = none ∧
      alookup (chosenDomain dd choice) bd' = none) ∧
    (urls.dropLast ≠ [] → alookup (chosenDomain dd choice) bd' = some now') ∧
    (registry_invariant dd bd → registry_invariant dd' bd') := by
  simp only [draw_backoff_url] at hdraw
  split at hdraw
  · simp at hdraw
  · split at hdraw
    · simp at hdraw
    · rename_i urls0 heq
      rw [hurls] at heq
      injection heq with heq2
      subst heq2
      split at hdraw
      · simp at hdraw
      · rename_i url0 hlast
        split at hdraw
        · rename_i hrest
          simp only [Option.some.injEq, Prod.mk.injEq] at hdraw
          obtain ⟨hu, hdd', hbd', hi', hnow'⟩ := hdraw
          have hrest' : urls.dropLast = [] := by simpa using hrest
          subst hdd'; subst hbd'
          refine ⟨fun _ => ⟨alookup_aerase_self _ _ hdd, alookup_aerase_self _ _ hbd⟩,
            fun hcon => absurd hrest' hcon, ?_⟩
          intro hinv p hp
          obtain ⟨hmem, hne⟩ := mem_aerase_fst_ne hbd hp
          obtain ⟨us, hus, husne⟩ := hinv p hmem
          exact ⟨us, by rwa [alookup_aerase_ne hne], husne⟩
        · rename_i hrest
          simp only [Option.some.injEq, Prod.mk.injEq] at hdraw
          obtain ⟨hu, hdd', hbd', hi', hnow'⟩ := hdraw
          have hrest' : urls.dropLast ≠ [] := by simpa using hrest
          subst hdd'; subst hbd'; subst hnow'
          refine ⟨fun hcon => absurd hcon hrest', fun _ => alookup_aset_self _ _ _, ?_⟩
          intro hinv p hp
          by_cases hpk : p.1 = chosenDomain dd choice
          · rw [hpk, alookup_aset_self]
            exact ⟨urls.dropLast, rfl, hrest'⟩
          · rcases mem_aset_elim hp with h1 | h1
            · exact absurd h1 hpk
            · obtain ⟨us, hus, husne⟩ := hinv p h1
              exact ⟨us, by rwa [alookup_aset_ne hpk], husne⟩

/-- Witness for `draw_registry_cleanup_spec`: single domain with one URL;
the draw empties the queue and removes the domain from both registries. -/
theorem draw_registry_cleanup_spec_witness :
    ((["u"] : List String).dropLast = [] →
      alookup (chosenDomain [("a", ["u"])] 0) ([] : List (String × List String)) = none ∧
      alookup (chosenDomain [("a", ["u"])] 0) ([] : List (String × Nat)) = none) ∧
    ((["u"] : List String).dropLast ≠ [] →
      alookup (chosenDomain [("a", ["u"])] 0) ([] : List (String × Nat)) = some 7) ∧
    (registry_invariant [("a", ["u"])] [] → registry_invariant [] []) :=
  draw_registry_cleanup_spec [("a", ["u"])] [] 5 0 0 7
    (by simp) (by simp) "u" [] [] 0 7 ["u"] rfl rfl

/-! ## Executor theorems -/

/-- Claim C1 counterexample: a queue with a single domain holding three
distinct URLs, three workers.  The number of distinct domains (1) is
smaller than the worker count (3), yet the concurrent executor does not
delegate to the sequential executor: its fallback test compares the worker
count against the number of distinct remaining URLs (3, not below 3), so
the run dispatches a concurrent batch and never delegates. -/
theorem c1_fallback_check_counterexample :
    ([("a", ["u1", "u2", "u3"])] : List (String × List String)).length < 3 ∧
    multi_threaded_processing (fun _ => some "ok") 0 3 5 [0, 0, 0] 0
      [("a", ["u1", "u2", "u3"])] none =
      some ([], none, [MEvent.batch ["u3", "u2", "u1"]]) ∧
    MEvent.delegated ∉ [MEvent.batch ["u3", "u2", "u1"]] :=
  ⟨by decide, rfl, by simp⟩

/-- Claim C1 (amended): at the top of every loop iteration of the
concurrent executor, if the number of distinct URLs remaining in the queue
(not the distinct-domain count) is smaller than the worker count `N`, the
executor delegates the entire remainder to the sequential executor and
returns its result. -/
theorem multi_loop_delegates_on_few_urls (fetch : String → Option String)
    (sleeptime N fuel : Nat) (dd : List (String × List String)) (bd : List (String × Nat))
    (i : Nat) (choices : List Nat) (now : Nat) (errors : List String) (counter : Option Nat)
    (hne : dd ≠ []) (hlt : distinctUrlCount dd < N) :
    multi_loop fetch sleeptime N (fuel + 1) dd bd i choices now errors counter =
      (single_threaded_processing fetch sleeptime fuel dd bd choices now counter).map
        (fun ec => (ec.1, ec.2, [MEvent.delegated])) := by
  have hem : dd.isEmpty = false := by
    cases dd
    · exact absurd rfl hne
    · rfl
  simp [multi_loop, hem, hlt]

/-- Witness for `multi_loop_delegates_on_few_urls`: one domain, one URL,
three workers; the whole remainder is handed to the sequential executor. -/
theorem multi_loop_delegates_on_few_urls_witness :
    multi_loop (fun _ => some "ok") 0 3 3 [("a", ["u1"])] [] 0 [] 0 [] none =
      (single_threaded_processing (fun _ => some "ok") 0 2 [("a", ["u1"])] [] [] 0 none).map
        (fun ec => (ec.1, ec.2, [MEvent.delegated])) :=
  multi_loop_delegates_on_few_urls (fun _ => some "ok") 0 3 2 [("a", ["u1"])] [] 0 [] 0 [] none
    (by simp) (by decide)

/-- Claim C3 (code bug): with the deterministic stub fetcher failing only on
`a1`, the sequential executor over the queues `a -> [a1, a2]`,
`b -> [b1, b2]` ends with error set `[a1]`, while the concurrent executor
(3 workers) over the same input draws `a1` into its first batch, records
the error, then hits the fallback (1 distinct URL left, below 3) — and the
fallback reassigns the error list to the sequential call's result,
discarding `a1`.  The final error sets differ as sets: `a1` is in one and
not the other. -/
theorem executors_error_set_divergence :
    single_threaded_processing (fun u => if u = "a1" then none else some "ok") 0 10
      [("a", ["a1", "a2"]), ("b", ["b1", "b2"])] [] [0, 0, 0, 0] 0 none =
      some (["a1"], none) ∧
    multi_threaded_processing (fun u => if u = "a1" then none else some "ok") 0 3 10
      [0, 0, 0, 0] 0 [("a", ["a1", "a2"]), ("b", ["b1", "b2"])] none =
      some ([], none, [MEvent.batch ["a2", "a1", "b2"], MEvent.delegated]) ∧
    "a1" ∈ (["a1"] : List String) ∧ "a1" ∉ ([] : List String) :=
  ⟨rfl, rfl, by simp, by simp⟩

/-! ## Output sharding -/

/-- Claim C6: for every non-null counter `c` and shard size `S > 0`,
`determine_counter_dir` uses the shard index `c / S + 1` as the
subdirectory name, and the empty string as subdirectory when the counter is
`None`.  (The function is pure, so the index is identical across repeated
calls with the same counter.) -/
theorem determine_counter_dir_spec (dirname : String) (c S : Nat) (hS : 0 < S) :
    determine_counter_dir dirname (some c) S = pathJoin dirname (toString (c / S + 1)) ∧
    determine_counter_dir dirname none S = pathJoin dirname "" ∧
    counter_shard S c = c / S + 1 :=
  ⟨rfl, rfl, rfl⟩

/-- Witness for `determine_counter_dir_spec` at counter 450, shard size
200: shard index 3. -/
theorem determine_counter_dir_spec_witness :
    determine_counter_dir "out" (some 450) 200 = pathJoin "out" (toString (450 / 200 + 1)) ∧
    determine_counter_dir "out" none 200 = pathJoin "out" "" ∧
    counter_shard 200 450 = 450 / 200 + 1 :=
  determine_counter_dir_spec "out" 450 200 (by decide)

/-! ## Blacklist loading -/

theorem startswith_httpsTok_of_http (r : List Char) :
    startswith httpsTok (httpPre ++ r) = false := rfl

theorem startswith_httpsTok_of_https (r : List Char) :
    startswith httpsTok (httpsPre ++ r) = true := rfl

theorem subst_http_to_https (r : List Char) :
    subst_scheme httpColon httpsColon (httpPre ++ r) = httpsPre ++ r := rfl

theorem subst_https_to_http (r : List Char) :
    subst_scheme httpsColon httpColon (httpsPre ++ r) = httpPre ++ r := rfl

theorem mem_foldl_blacklist {x : List Char} (lines : List (List Char)) :
    ∀ acc : List (List Char), x ∈ acc → x ∈ lines.foldl blacklist_step acc := by
  induction lines with
  | nil => intro acc h; simpa using h
  | cons l ls ih =>
    intro acc h
    exact ih _ (by simp only [blacklist_step]; exact
      List.mem_cons_of_mem _ (List.mem_cons_of_mem _ h))

theorem load_blacklist_aux (line r : List Char)
    (hform : pyStrip line = httpPre ++ r ∨ pyStrip line = httpsPre ++ r) :
    ∀ (lines : List (List Char)) (acc : List (List Char)), line ∈ lines →
      (httpPre ++ r) ∈ lines.foldl blacklist_step acc ∧
      (httpsPre ++ r) ∈ lines.foldl blacklist_step acc := by
  intro lines
  induction lines with
  | nil => intro acc h; cases h
  | cons l ls ih =>
    intro acc hmem
    rcases List.mem_cons.mp hmem with hl | hl
    · subst hl
      rcases hform with hf | hf
      · have e : blacklist_step acc line = (httpsPre ++ r) :: (httpPre ++ r) :: acc := by
          simp [blacklist_step, hf, startswith_httpsTok_of_http, subst_http_to_https]
        rw [List.foldl_cons, e]
        exact ⟨mem_foldl_blacklist ls _ (by simp),
          mem_foldl_blacklist ls _ (by simp)⟩
      · have e : blacklist_step acc line = (httpPre ++ r) :: (httpsPre ++ r) :: acc := by
          simp [blacklist_step, hf, startswith_httpsTok_of_https, subst_https_to_http]
        rw [List.foldl_cons, e]
        exact ⟨mem_foldl_blacklist ls _ (by simp),
          mem_foldl_blacklist ls _ (by simp)⟩
    · exact ih _ hl

/-- Claim C7: for every line supplied to `load_blacklist` whose stripped
form carries an `http://` or `https://` scheme, both the `http://` and the
`https://` variant of that entry are present in the returned blacklist,
regardless of which scheme was originally listed. -/
theorem load_blacklist_both_schemes (lines : List (List Char)) (line r : List Char)
    (hmem : line ∈ lines)
    (hform : pyStrip line = httpPre ++ r ∨ pyStrip line = httpsPre ++ r) :
    (httpPre ++ r) ∈ load_blacklist lines ∧ (httpsPre ++ r) ∈ load_blacklist lines :=
  load_blacklist_aux line r hform lines [] hmem

/-- Witness for `load_blacklist_both_schemes`: the single entry
`http://x` yields both `http://x` and `https://x`. -/
theorem load_blacklist_both_schemes_witness :
    (httpPre ++ ['x']) ∈ load_blacklist [['h', 't', 't', 'p', ':', '/', '/', 'x']] ∧
    (httpsPre ++ ['x']) ∈ load_blacklist [['h', 't', 't', 'p', ':', '/', '/', 'x']] :=
  load_blacklist_both_schemes [['h', 't', 't', 'p', ':', '/', '/', 'x']]
    ['h', 't', 't', 'p', ':', '/', '/', 'x'] ['x'] (by simp) (Or.inl rfl)

/-! ## File batch pipeline -/

/-- Claim C8 counterexample: with shard threshold 200 and a walk yielding
250 files, the dispatch rounds have sizes 201 and 49 — not 200 and 50 as
claimed — because the source dispatches only when the batch size strictly
exceeds the threshold. -/
theorem c8_round_sizes_counterexample :
    (file_processing_pipeline 200 (List.range 250)).map (fun p => p.1.length) = [201, 49] ∧
    (file_processing_pipeline 200 (List.range 250)).map (fun p => p.1.length) ≠ [200, 50] :=
  ⟨rfl, by intro h; rw [show (file_processing_pipeline 200 (List.range 250)).map
      (fun p => p.1.length) = [201, 49] from rfl] at h; simp at h⟩

/-- Claim C8 (amended): an input walk of 250 files with shard threshold 200
produces exactly two dispatch rounds, of 201 files then 49 files (the
overflow dispatch fires when the batch strictly exceeds the threshold); the
first round's workers receive counter 0 (shard index 1) and the second
round's receive counter 250 (shard index 2), one greater than the first. -/
theorem c8_round_sizes_amended :
    (file_processing_pipeline 200 (List.range 250)).map (fun p => p.1.length) = [201, 49] ∧
    (file_processing_pipeline 200 (List.range 250)).map (fun p => p.2) = [some 0, some 250] ∧
    (file_processing_pipeline 200 (List.range 250)).map
      (fun p => p.2.map (counter_shard 200)) = [some 1, some 2] ∧
    counter_shard 200 250 = counter_shard 200 0 + 1 :=
  ⟨rfl, rfl, rfl, rfl⟩

/-! ## Safety gate -/

/-- Claim C9: for every document that is null, smaller than the configured
minimum or larger than the configured maximum, `examine` returns `None`
without invoking the extraction collaborator (the result is the same for
every `extractF`), the rejection is reported to the diagnostic stream, and
the subsequent `write_result` performs no write. -/
theorem examine_rejects_before_extract
    (extractF : List Char → Except String (Option String)) (MINS MAXS : Nat)
    (htmlstring : Option (List Char)) (outputdir : Option String)
    (dest : String × String) (dirOk : String → Bool)
    (hrej : htmlstring = none ∨
      ∃ doc, htmlstring = some doc ∧ (doc.length < MINS ∨ MAXS < doc.length)) :
    (examine extractF MINS MAXS htmlstring).1 = none ∧
    (examine extractF MINS MAXS htmlstring).2 ≠ [] ∧
    write_result (examine extractF MINS MAXS htmlstring).1 outputdir dest dirOk = none := by
  rcases hrej with h | ⟨doc, hdoc, hsz⟩
  · subst h
    exact ⟨rfl, by simp [examine], rfl⟩
  · subst hdoc
    by_cases hmax : MAXS < doc.length
    · simp [examine, hmax, write_result]
    · have hmin : doc.length < MINS := by
        rcases hsz with h | h
        · exact h
        · exact absurd h hmax
      simp [examine, hmax, hmin, write_result]

/-- Witness for `examine_rejects_before_extract`: a one-character document
with a minimum size of 3 is rejected, and nothing is written. -/
theorem examine_rejects_before_extract_witness :
    (examine (fun _ => Except.ok (some "text")) 3 10 (some ['a'])).1 = none ∧
    (examine (fun _ => Except.ok (some "text")) 3 10 (some ['a'])).2 ≠ [] ∧
    write_result (examine (fun _ => Except.ok (some "text")) 3 10 (some ['a'])).1
      (some "out") ("out/1/x.txt", "out/1") (fun _ => true) = none :=
  examine_rejects_before_extract (fun _ => Except.ok (some "text")) 3 10 (some ['a'])
    (some "out") ("out/1/x.txt", "out/1") (fun _ => true)
    (Or.inr ⟨['a'], rfl, Or.inl (by decide)⟩)

/-! ## URL pipeline counter -/

theorem partition_drain_fst_eq_nil (ed : String → String) :
    ∀ (fuel : Nat) (urls : List String) (dd : List (String × List String)),
      urls.length ≤ fuel → (partition_drain ed fuel urls dd).1 = [] := by
  intro fuel
  induction fuel with
  | zero =>
    intro urls dd h
    have he : urls = [] := List.eq_nil_of_length_eq_zero (Nat.le_zero.mp h)
    subst he; rfl
  | succ n ih =>
    intro urls dd h
    cases hlast : urls.getLast? with
    | none =>
      have he : urls = [] := by simpa using hlast
      subst he
      simp [partition_drain]
    | some url =>
      have hne : urls ≠ [] := by
        intro he; subst he; simp at hlast
      have hlen : urls.dropLast.length ≤ n := by
        rw [List.length_dropLast]
        have : 0 < urls.length := List.length_pos.mpr hne
        omega
      simp only [partition_drain, hlast]
      exact ih urls.dropLast _ hlen

/-- Claim C10: in `url_processing_pipeline`, the counter passed to the
executors is always `None`: the counter-initialization check tests the
length of the input list only after the domain-partitioning loop has
drained it to empty, so counter-based output sharding never activates in
the URL-download pipeline, whatever the number of URLs supplied. -/
theorem url_pipeline_counter_always_none (S : Nat) (ed : String → String)
    (input_urls : List String) : url_pipeline_counter S ed input_urls = none := by
  have h := partition_drain_fst_eq_nil ed input_urls.length input_urls [] (le_refl _)
  simp [url_pipeline_counter, h]

end Trafilatura
